import Mathlib

/-!
Verification of the WifiMute repository's command listener and enforcement
engine against its natural-language specification.

The repository ships a web UI (src/src/App.tsx and related components) that
publishes block/unblock and schedule commands over MQTT, and a companion
daemon (`wifi_blocker.py`, described by the embedded README but not present
in the repository sources) that consumes those commands and maintains
iptables rules.  The web-UI publishers are embedded directly from the
TypeScript source; the daemon-side components (TargetRegistry, RuleEnforcer,
ScheduleController, CommandRouter) are modelled from the specification, as
the daemon's source file is not part of the repository.
-/

namespace WifiMute

/-! ## RuleEnforcer: the filter table

Modelled from the spec: the daemon source `wifi_blocker.py` is not in the
repository; §4.3 describes `block`/`unblock`/`blockAll`/`unblockAll` over an
OS packet-filter table.  The table is a list of per-address drop rules. -/

/-- Modelled from the spec: `block(address)` ensures a drop rule for the
address exists; if one already exists, no duplicate is added
(check-before-insert). -/
def block (a : String) (t : List String) : List String :=
  if a ∈ t then t else t ++ [a]

/-- Modelled from the spec: `unblock(address)` ensures no drop rule for the
address remains; removing a rule that does not exist is a no-op. -/
def unblock (a : String) (t : List String) : List String :=
  t.filter (fun r => decide (r ≠ a))

/-- Modelled from the spec: `blockAll()` iterates TargetRegistry's current
contents and applies `block` to each member. -/
def blockAll (registry : List String) (t : List String) : List String :=
  registry.foldl (fun acc a => block a acc) t

/-- Modelled from the spec: `unblockAll()` iterates TargetRegistry's current
contents and applies `unblock` to each member. -/
def unblockAll (registry : List String) (t : List String) : List String :=
  registry.foldl (fun acc a => unblock a acc) t

theorem blockAll_cons (x : String) (xs t : List String) :
    blockAll (x :: xs) t = blockAll xs (block x t) := rfl

theorem unblockAll_cons (x : String) (xs t : List String) :
    unblockAll (x :: xs) t = unblockAll xs (unblock x t) := rfl

theorem block_of_mem {a : String} {t : List String} (h : a ∈ t) :
    block a t = t := by
  simp [block, h]

theorem block_of_not_mem {a : String} {t : List String} (h : a ∉ t) :
    block a t = t ++ [a] := by
  simp [block, h]

theorem mem_block (a b : String) (t : List String) :
    b ∈ block a t ↔ b ∈ t ∨ b = a := by
  by_cases h : a ∈ t
  · rw [block_of_mem h]
    constructor
    · exact Or.inl
    · rintro (hb | rfl)
      · exact hb
      · exact h
  · rw [block_of_not_mem h]
    simp

theorem mem_unblock (a b : String) (t : List String) :
    b ∈ unblock a t ↔ b ∈ t ∧ b ≠ a := by
  simp [unblock]

theorem block_mem_self (a : String) (t : List String) : a ∈ block a t :=
  (mem_block a a t).mpr (Or.inr rfl)

theorem block_idem (a : String) (t : List String) :
    block a (block a t) = block a t :=
  block_of_mem (block_mem_self a t)

theorem mem_blockAll (reg : List String) (b : String) (t : List String) :
    b ∈ blockAll reg t ↔ b ∈ t ∨ b ∈ reg := by
  induction reg generalizing t with
  | nil => simp [blockAll]
  | cons x xs ih =>
      rw [blockAll_cons, ih, mem_block]
      simp [List.mem_cons]
      tauto

theorem mem_unblockAll (reg : List String) (b : String) (t : List String) :
    b ∈ unblockAll reg t ↔ b ∈ t ∧ b ∉ reg := by
  induction reg generalizing t with
  | nil => simp [unblockAll]
  | cons x xs ih =>
      rw [unblockAll_cons, ih, mem_unblock]
      simp [List.mem_cons]
      tauto

theorem count_block_of_not_mem {a : String} {t : List String} (h : a ∉ t) :
    (block a t).count a = 1 := by
  rw [block_of_not_mem h]
  simp [List.count_append, List.count_eq_zero_of_not_mem h]

/-- C2: for every address `a` and every filter table holding at most one rule
for `a` (as every table reachable through RuleEnforcer does), calling
`block a` twice leaves exactly one blocking rule for `a`, and moreover the
second call is the identity (no duplicate rule is added). -/
theorem c2_block_twice_one_rule (a : String) (t : List String)
    (h : t.count a ≤ 1) :
    (block a (block a t)).count a = 1 ∧ block a (block a t) = block a t := by
  refine ⟨?_, block_idem a t⟩
  rw [block_idem]
  by_cases hm : a ∈ t
  · rw [block_of_mem hm]
    have h1 : 0 < t.count a := List.count_pos_iff.mpr hm
    omega
  · exact count_block_of_not_mem hm

/-- Witness for C2 at a concrete table already containing the address. -/
theorem c2_block_twice_one_rule_witness :
    (["10.0.0.5", "10.0.0.6"] : List String).count "10.0.0.5" ≤ 1 ∧
      ((block "10.0.0.5" (block "10.0.0.5" ["10.0.0.5", "10.0.0.6"])).count
          "10.0.0.5" = 1 ∧
        block "10.0.0.5" (block "10.0.0.5" ["10.0.0.5", "10.0.0.6"]) =
          block "10.0.0.5" ["10.0.0.5", "10.0.0.6"]) :=
  ⟨by decide, c2_block_twice_one_rule "10.0.0.5" ["10.0.0.5", "10.0.0.6"]
    (by decide)⟩

theorem unblockAll_eq_filter (reg t : List String) :
    unblockAll reg t = t.filter (fun r => decide (r ∉ reg)) := by
  induction reg generalizing t with
  | nil => simp [unblockAll]
  | cons x xs ih =>
      rw [unblockAll_cons, ih, unblock, List.filter_filter]
      apply List.filter_congr
      intro a _
      by_cases h1 : a = x <;> by_cases h2 : a ∈ xs <;> simp [h1, h2]

theorem unblockAll_append (reg t u : List String) :
    unblockAll reg (t ++ u) = unblockAll reg t ++ unblockAll reg u := by
  simp [unblockAll_eq_filter, List.filter_append]

theorem unblockAll_of_disjoint (reg t : List String)
    (h : ∀ a ∈ reg, a ∉ t) : unblockAll reg t = t := by
  rw [unblockAll_eq_filter]
  apply List.filter_eq_self.mpr
  intro a ha
  simp only [decide_eq_true_eq]
  exact fun hr => h a hr ha

theorem unblockAll_of_subset (reg e : List String)
    (h : ∀ b ∈ e, b ∈ reg) : unblockAll reg e = [] := by
  rw [unblockAll_eq_filter]
  apply List.filter_eq_nil_iff.mpr
  intro a ha
  simp only [decide_eq_true_eq, not_not]
  exact h a ha

theorem blockAll_exists_append (reg t : List String) :
    ∃ e, blockAll reg t = t ++ e ∧ ∀ b ∈ e, b ∈ reg := by
  induction reg generalizing t with
  | nil => exact ⟨[], by simp [blockAll], by simp⟩
  | cons x xs ih =>
      rw [blockAll_cons]
      by_cases h : x ∈ t
      · rw [block_of_mem h]
        obtain ⟨e, he, hm⟩ := ih t
        exact ⟨e, he, fun b hb => List.mem_cons_of_mem x (hm b hb)⟩
      · rw [block_of_not_mem h]
        obtain ⟨e, he, hm⟩ := ih (t ++ [x])
        refine ⟨x :: e, ?_, ?_⟩
        · rw [he, List.append_assoc]
          rfl
        · intro b hb
          rcases List.mem_cons.mp hb with h1 | h1
          · rw [h1]
            exact List.mem_cons_self x xs
          · exact List.mem_cons_of_mem x (hm b h1)

/-- C6 counterexample: starting from a table in which a registry member is
already blocked, `blockAll` followed by `unblockAll` does not restore the
table — the pre-existing rule is removed as well, so the round-trip law
fails for that starting state. -/
theorem c6_roundtrip_counterexample :
    unblockAll ["10.0.0.5"] (blockAll ["10.0.0.5"] ["10.0.0.5"]) ≠
      ["10.0.0.5"] := by decide

/-- C6 (amended): for every starting filter table in which no registry
member is currently blocked, `blockAll()` followed by `unblockAll()` over
the same registry returns the filter table to exactly its state before the
`blockAll()` call. -/
theorem c6_roundtrip (reg t : List String) (h : ∀ a ∈ reg, a ∉ t) :
    unblockAll reg (blockAll reg t) = t := by
  obtain ⟨e, he, hm⟩ := blockAll_exists_append reg t
  rw [he, unblockAll_append, unblockAll_of_disjoint reg t h,
    unblockAll_of_subset reg e hm, List.append_nil]

/-- Witness for C6 at the spec's example registry, with an unrelated address
already blocked. -/
theorem c6_roundtrip_witness :
    (∀ a ∈ (["10.0.0.5", "10.0.0.6"] : List String), a ∉ ["10.0.0.9"]) ∧
      unblockAll ["10.0.0.5", "10.0.0.6"]
          (blockAll ["10.0.0.5", "10.0.0.6"] ["10.0.0.9"]) = ["10.0.0.9"] :=
  ⟨by decide, c6_roundtrip ["10.0.0.5", "10.0.0.6"] ["10.0.0.9"] (by decide)⟩

/-! ## CommandRouter and ScheduleController

Modelled from the spec: the daemon source is not in the repository; §4.2
describes payload decoding and dispatch, §4.4 the schedule state machine
(two daily triggers at `blockAt` / `unblockAt`). -/

/-- Modelled from the spec: the `ScheduleWindow` configuration — two
times-of-day, in minutes since midnight (the README's defaults are 00:00
and 06:00). -/
structure Config where
  blockAt : Nat
  unblockAt : Nat
deriving DecidableEq

/-- Modelled from the spec: the daemon's process-wide state — the
TargetRegistry contents, the filter table, the `scheduleActive` flag and the
armed/disarmed state of the two daily triggers. -/
structure DaemonState where
  registry : List String
  table : List String
  scheduleActive : Bool
  blockTriggerArmed : Bool
  unblockTriggerArmed : Bool
deriving DecidableEq

/-- The action carried by a BlockCommand. -/
inductive BlockAction where
  | blockAct
  | unblockAct
deriving DecidableEq

/-- Modelled from the spec: a decoded inbound command — either a
BlockCommand (address plus action) or a ScheduleCommand (enable/disable). -/
inductive Command where
  | blockCmd (ip : String) (act : BlockAction)
  | scheduleCmd (enable : Bool)
deriving DecidableEq

/-- A RuleEnforcer entry point invoked during one dispatch; recorded so that
"invoked exactly once" properties can be stated. -/
inductive RuleOp where
  | opBlock (a : String)
  | opUnblock (a : String)
  | opBlockAll
  | opUnblockAll
deriving DecidableEq

/-- Modelled from the spec: whether a wall-clock time (minutes since
midnight) lies inside the daily block window from `blockAt` to
`unblockAt`, allowing the window to wrap past midnight. -/
def insideWindow (cfg : Config) (now : Nat) : Bool :=
  if cfg.blockAt ≤ cfg.unblockAt then
    decide (cfg.blockAt ≤ now) && decide (now < cfg.unblockAt)
  else
    decide (cfg.blockAt ≤ now) || decide (now < cfg.unblockAt)

/-- Apply a block/unblock action to a single address in the filter table. -/
def applyAction (act : BlockAction) (a : String) (t : List String) :
    List String :=
  match act with
  | .blockAct => block a t
  | .unblockAct => unblock a t

/-- Apply a block/unblock action to every registry member. -/
def applyActionAll (act : BlockAction) (reg t : List String) : List String :=
  match act with
  | .blockAct => blockAll reg t
  | .unblockAct => unblockAll reg t

/-- Modelled from the spec: CommandRouter dispatch (§4.2) together with the
ScheduleController transitions it drives (§4.4).  A BlockCommand with the
wildcard address applies the action to every registry member; a concrete
address is acted on directly.  `schedule_enable` activates the controller
(no-op when already enabled): it arms both daily triggers and, when the
current time is inside the window, synchronously runs `blockAll`.
`schedule_disable` stops the controller, disarms both triggers and
unconditionally runs `unblockAll`.  Returns the new state and the list of
RuleEnforcer bulk/single entry points invoked. -/
def dispatch (cfg : Config) (now : Nat) (s : DaemonState) (c : Command) :
    DaemonState × List RuleOp :=
  match c with
  | .blockCmd ip act =>
      if ip = "0.0.0.0" then
        ({ s with table := applyActionAll act s.registry s.table },
          [match act with
            | .blockAct => .opBlockAll
            | .unblockAct => .opUnblockAll])
      else
        ({ s with table := applyAction act ip s.table },
          [match act with
            | .blockAct => .opBlock ip
            | .unblockAct => .opUnblock ip])
  | .scheduleCmd true =>
      if s.scheduleActive then (s, [])
      else if insideWindow cfg now then
        ({ s with
            scheduleActive := true
            blockTriggerArmed := true
            unblockTriggerArmed := true
            table := blockAll s.registry s.table }, [.opBlockAll])
      else
        ({ s with
            scheduleActive := true
            blockTriggerArmed := true
            unblockTriggerArmed := true }, [])
  | .scheduleCmd false =>
      ({ s with
          scheduleActive := false
          blockTriggerArmed := false
          unblockTriggerArmed := false
          table := unblockAll s.registry s.table }, [.opUnblockAll])

/-- An inbound JSON object payload, as its decoded key/value pairs. -/
abbrev Payload := List (String × String)

/-- First value bound to a key in a payload. -/
def lookupField (k : String) (p : Payload) : Option String :=
  match p with
  | [] => none
  | (k2, v) :: rest => if k2 = k then some v else lookupField k rest

/-- Modelled from the spec: decode the BlockCommand wire shape
(fields `ip` and `status`, with `status` either "block" or "unblock"). -/
def decodeBlock (p : Payload) : Option Command :=
  match lookupField "ip" p, lookupField "status" p with
  | some ip, some st =>
      if st = "block" then some (.blockCmd ip .blockAct)
      else if st = "unblock" then some (.blockCmd ip .unblockAct)
      else none
  | _, _ => none

/-- Modelled from the spec: decode the ScheduleCommand wire shape
(field `command`, either "schedule_enable" or "schedule_disable"). -/
def decodeSchedule (p : Payload) : Option Command :=
  match lookupField "command" p with
  | some c =>
      if c = "schedule_enable" then some (.scheduleCmd true)
      else if c = "schedule_disable" then some (.scheduleCmd false)
      else none
  | none => none

/-- Modelled from the spec: structured decode of an inbound payload into one
of the two recognized command shapes; `none` on a malformed payload or an
unrecognized field combination. -/
def decode (p : Payload) : Option Command :=
  match decodeBlock p with
  | some c => some c
  | none => decodeSchedule p

/-- Outcome of handling one inbound message: the resulting daemon state, the
RuleEnforcer entry points invoked, and how many warnings were logged. -/
structure HandleResult where
  state : DaemonState
  ops : List RuleOp
  warnings : Nat
deriving DecidableEq

/-- Modelled from the spec: the message sink — decode the payload; on
failure discard it with one logged warning, otherwise dispatch.  A total
function: no inbound payload can crash the process. -/
def handleMessage (cfg : Config) (now : Nat) (s : DaemonState)
    (p : Payload) : HandleResult :=
  match decode p with
  | none => ⟨s, [], 1⟩
  | some c =>
      let r := dispatch cfg now s c
      ⟨r.1, r.2, 0⟩

/-- Whether the given action has taken effect for an address: after `block`
the address is in the table, after `unblock` it is not. -/
def actionApplied (act : BlockAction) (a : String) (t : List String) : Prop :=
  match act with
  | .blockAct => a ∈ t
  | .unblockAct => a ∉ t

theorem dispatch_blockCmd (cfg : Config) (now : Nat) (s : DaemonState)
    (ip : String) (act : BlockAction) :
    dispatch cfg now s (.blockCmd ip act) =
      if ip = "0.0.0.0" then
        ({ s with table := applyActionAll act s.registry s.table },
          [match act with
            | .blockAct => .opBlockAll
            | .unblockAct => .opUnblockAll])
      else
        ({ s with table := applyAction act ip s.table },
          [match act with
            | .blockAct => .opBlock ip
            | .unblockAct => .opUnblock ip]) := rfl

theorem dispatch_schedule_disable (cfg : Config) (now : Nat)
    (s : DaemonState) :
    dispatch cfg now s (.scheduleCmd false) =
      ({ s with
          scheduleActive := false
          blockTriggerArmed := false
          unblockTriggerArmed := false
          table := unblockAll s.registry s.table }, [.opUnblockAll]) := rfl

theorem dispatch_schedule_enable (cfg : Config) (now : Nat)
    (s : DaemonState) :
    dispatch cfg now s (.scheduleCmd true) =
      if s.scheduleActive then (s, [])
      else if insideWindow cfg now then
        ({ s with
            scheduleActive := true
            blockTriggerArmed := true
            unblockTriggerArmed := true
            table := blockAll s.registry s.table }, [.opBlockAll])
      else
        ({ s with
            scheduleActive := true
            blockTriggerArmed := true
            unblockTriggerArmed := true }, []) := rfl

theorem handleMessage_decoded (cfg : Config) (now : Nat) (s : DaemonState)
    (p : Payload) (c : Command) (s2 : DaemonState) (ops : List RuleOp)
    (hc : decode p = some c) (hd : dispatch cfg now s c = (s2, ops)) :
    handleMessage cfg now s p = ⟨s2, ops, 0⟩ := by
  unfold handleMessage
  rw [hc]
  show (⟨(dispatch cfg now s c).1, (dispatch cfg now s c).2, 0⟩ :
    HandleResult) = ⟨s2, ops, 0⟩
  rw [hd]

/-- C1: dispatching a BlockCommand never touches the registry or the
schedule flag; with the wildcard address the action takes effect for every
registry member and membership in the filter table is unchanged for every
other address; with a concrete address the action takes effect for exactly
that address — whether or not it is a registry member — and every other
address keeps its filter-table membership. -/
theorem c1_block_dispatch (cfg : Config) (now : Nat) (s : DaemonState)
    (ip : String) (act : BlockAction) (s2 : DaemonState) (ops : List RuleOp)
    (h : dispatch cfg now s (.blockCmd ip act) = (s2, ops)) :
    s2.registry = s.registry ∧ s2.scheduleActive = s.scheduleActive ∧
      (ip = "0.0.0.0" →
        (∀ a ∈ s.registry, actionApplied act a s2.table) ∧
          ∀ a, a ∉ s.registry → (a ∈ s2.table ↔ a ∈ s.table)) ∧
      (ip ≠ "0.0.0.0" →
        actionApplied act ip s2.table ∧
          ∀ a, a ≠ ip → (a ∈ s2.table ↔ a ∈ s.table)) := by
  rw [dispatch_blockCmd] at h
  by_cases hip : ip = "0.0.0.0"
  · rw [if_pos hip] at h
    injection h with h1 h2
    subst h1
    refine ⟨rfl, rfl, fun _ => ⟨?_, ?_⟩, fun hne => absurd hip hne⟩
    · intro a ha
      cases act with
      | blockAct =>
          show a ∈ blockAll s.registry s.table
          exact (mem_blockAll s.registry a s.table).mpr (Or.inr ha)
      | unblockAct =>
          show a ∉ unblockAll s.registry s.table
          intro hmem
          exact ((mem_unblockAll s.registry a s.table).mp hmem).2 ha
    · intro a ha
      cases act with
      | blockAct =>
          show a ∈ blockAll s.registry s.table ↔ a ∈ s.table
          rw [mem_blockAll]
          tauto
      | unblockAct =>
          show a ∈ unblockAll s.registry s.table ↔ a ∈ s.table
          rw [mem_unblockAll]
          tauto
  · rw [if_neg hip] at h
    injection h with h1 h2
    subst h1
    refine ⟨rfl, rfl, fun heq => absurd heq hip, fun _ => ⟨?_, ?_⟩⟩
    · cases act with
      | blockAct =>
          show ip ∈ block ip s.table
          exact block_mem_self ip s.table
      | unblockAct =>
          show ip ∉ unblock ip s.table
          intro hmem
          exact ((mem_unblock ip ip s.table).mp hmem).2 rfl
    · intro a ha
      cases act with
      | blockAct =>
          show a ∈ block ip s.table ↔ a ∈ s.table
          rw [mem_block]
          tauto
      | unblockAct =>
          show a ∈ unblock ip s.table ↔ a ∈ s.table
          rw [mem_unblock]
          tauto

/-- Witness for C1: the spec's example — registry holding 10.0.0.5 and
10.0.0.6, wildcard block command. -/
theorem c1_block_dispatch_witness :
    dispatch ⟨0, 360⟩ 0 ⟨["10.0.0.5", "10.0.0.6"], [], false, false, false⟩
        (.blockCmd "0.0.0.0" .blockAct) =
      (⟨["10.0.0.5", "10.0.0.6"], ["10.0.0.5", "10.0.0.6"], false, false,
        false⟩, [RuleOp.opBlockAll]) ∧
    (((⟨["10.0.0.5", "10.0.0.6"], ["10.0.0.5", "10.0.0.6"], false, false,
          false⟩ : DaemonState).registry =
        (⟨["10.0.0.5", "10.0.0.6"], [], false, false, false⟩ :
          DaemonState).registry) ∧
      ((⟨["10.0.0.5", "10.0.0.6"], ["10.0.0.5", "10.0.0.6"], false, false,
          false⟩ : DaemonState).scheduleActive =
        (⟨["10.0.0.5", "10.0.0.6"], [], false, false, false⟩ :
          DaemonState).scheduleActive) ∧
      (("0.0.0.0" : String) = "0.0.0.0" →
        (∀ a ∈ (⟨["10.0.0.5", "10.0.0.6"], [], false, false, false⟩ :
            DaemonState).registry,
          actionApplied .blockAct a
            (⟨["10.0.0.5", "10.0.0.6"], ["10.0.0.5", "10.0.0.6"], false,
              false, false⟩ : DaemonState).table) ∧
          ∀ a, a ∉ (⟨["10.0.0.5", "10.0.0.6"], [], false, false, false⟩ :
              DaemonState).registry →
            (a ∈ (⟨["10.0.0.5", "10.0.0.6"], ["10.0.0.5", "10.0.0.6"],
                false, false, false⟩ : DaemonState).table ↔
              a ∈ (⟨["10.0.0.5", "10.0.0.6"], [], false, false, false⟩ :
                DaemonState).table)) ∧
      (("0.0.0.0" : String) ≠ "0.0.0.0" →
        actionApplied .blockAct "0.0.0.0"
            (⟨["10.0.0.5", "10.0.0.6"], ["10.0.0.5", "10.0.0.6"], false,
              false, false⟩ : DaemonState).table ∧
          ∀ a, a ≠ "0.0.0.0" →
            (a ∈ (⟨["10.0.0.5", "10.0.0.6"], ["10.0.0.5", "10.0.0.6"],
                false, false, false⟩ : DaemonState).table ↔
              a ∈ (⟨["10.0.0.5", "10.0.0.6"], [], false, false, false⟩ :
                DaemonState).table))) :=
  ⟨by decide,
    c1_block_dispatch ⟨0, 360⟩ 0
      ⟨["10.0.0.5", "10.0.0.6"], [], false, false, false⟩ "0.0.0.0"
      .blockAct
      ⟨["10.0.0.5", "10.0.0.6"], ["10.0.0.5", "10.0.0.6"], false, false,
        false⟩ [RuleOp.opBlockAll] (by decide)⟩

/-- C3: receiving the message with command `schedule_disable` invokes
`unblockAll` exactly once (it is the only RuleEnforcer entry point invoked),
disarms both daily triggers and clears the schedule flag, regardless of the
prior state; the resulting filter table is the registry sweep of
`unblock`. -/
theorem c3_schedule_disable (cfg : Config) (now : Nat) (s : DaemonState)
    (s2 : DaemonState) (ops : List RuleOp) (w : Nat)
    (h : handleMessage cfg now s [("command", "schedule_disable")] =
      ⟨s2, ops, w⟩) :
    ops = [RuleOp.opUnblockAll] ∧ s2.scheduleActive = false ∧
      s2.blockTriggerArmed = false ∧ s2.unblockTriggerArmed = false ∧
      s2.table = unblockAll s.registry s.table ∧ s2.registry = s.registry := by
  have hde : decode [("command", "schedule_disable")] =
      some (.scheduleCmd false) := by decide
  have h0 := (handleMessage_decoded cfg now s _ _ _ _ hde
    (dispatch_schedule_disable cfg now s)).symm.trans h
  injection h0 with h1 h2 h3
  subst h1 h2
  exact ⟨rfl, rfl, rfl, rfl, rfl, rfl⟩

/-- Witness for C3, starting from an enabled schedule with one blocked
registry member. -/
theorem c3_schedule_disable_witness :
    handleMessage ⟨0, 360⟩ 100
        ⟨["10.0.0.5"], ["10.0.0.5"], true, true, true⟩
        [("command", "schedule_disable")] =
      ⟨⟨["10.0.0.5"], [], false, false, false⟩, [RuleOp.opUnblockAll], 0⟩ ∧
    ([RuleOp.opUnblockAll] = [RuleOp.opUnblockAll] ∧
      (⟨["10.0.0.5"], [], false, false, false⟩ :
        DaemonState).scheduleActive = false ∧
      (⟨["10.0.0.5"], [], false, false, false⟩ :
        DaemonState).blockTriggerArmed = false ∧
      (⟨["10.0.0.5"], [], false, false, false⟩ :
        DaemonState).unblockTriggerArmed = false ∧
      (⟨["10.0.0.5"], [], false, false, false⟩ : DaemonState).table =
        unblockAll ["10.0.0.5"] ["10.0.0.5"] ∧
      (⟨["10.0.0.5"], [], false, false, false⟩ : DaemonState).registry =
        (⟨["10.0.0.5"], ["10.0.0.5"], true, true, true⟩ :
          DaemonState).registry) :=
  ⟨by decide,
    c3_schedule_disable ⟨0, 360⟩ 100
      ⟨["10.0.0.5"], ["10.0.0.5"], true, true, true⟩
      ⟨["10.0.0.5"], [], false, false, false⟩ [RuleOp.opUnblockAll] 0
      (by decide)⟩

/-- C4: receiving the message with command `schedule_enable` while the
schedule is inactive arms both daily triggers and sets the schedule flag;
when the current wall-clock time is inside the configured block window the
activation synchronously runs `blockAll` (and that is the only RuleEnforcer
entry point invoked), and when it is outside the window no RuleEnforcer
entry point is invoked and the filter table is unchanged. -/
theorem c4_schedule_enable (cfg : Config) (now : Nat) (s : DaemonState)
    (s2 : DaemonState) (ops : List RuleOp) (w : Nat)
    (hdis : s.scheduleActive = false)
    (h : handleMessage cfg now s [("command", "schedule_enable")] =
      ⟨s2, ops, w⟩) :
    s2.scheduleActive = true ∧ s2.blockTriggerArmed = true ∧
      s2.unblockTriggerArmed = true ∧
      (insideWindow cfg now = true →
        ops = [RuleOp.opBlockAll] ∧
          s2.table = blockAll s.registry s.table) ∧
      (insideWindow cfg now = false → ops = [] ∧ s2.table = s.table) := by
  have hde : decode [("command", "schedule_enable")] =
      some (.scheduleCmd true) := by decide
  cases hw : insideWindow cfg now with
  | true =>
      have hd : dispatch cfg now s (.scheduleCmd true) =
          ({ s with
              scheduleActive := true
              blockTriggerArmed := true
              unblockTriggerArmed := true
              table := blockAll s.registry s.table }, [.opBlockAll]) := by
        rw [dispatch_schedule_enable, hdis, hw]
        simp
      have h0 := (handleMessage_decoded cfg now s _ _ _ _ hde hd).symm.trans h
      injection h0 with h1 h2 h3
      subst h1 h2
      exact ⟨rfl, rfl, rfl, fun _ => ⟨rfl, rfl⟩,
        fun hfalse => Bool.noConfusion hfalse⟩
  | false =>
      have hd : dispatch cfg now s (.scheduleCmd true) =
          ({ s with
              scheduleActive := true
              blockTriggerArmed := true
              unblockTriggerArmed := true }, []) := by
        rw [dispatch_schedule_enable, hdis, hw]
        simp
      have h0 := (handleMessage_decoded cfg now s _ _ _ _ hde hd).symm.trans h
      injection h0 with h1 h2 h3
      subst h1 h2
      exact ⟨rfl, rfl, rfl, fun htrue => Bool.noConfusion htrue,
        fun _ => ⟨rfl, rfl⟩⟩

/-- Witness for C4, enabling the schedule at minute 100 with the README's
default window (00:00 to 06:00): inside the window, so `blockAll` runs
immediately. -/
theorem c4_schedule_enable_witness :
    (⟨["10.0.0.5"], [], false, false, false⟩ :
        DaemonState).scheduleActive = false ∧
    handleMessage ⟨0, 360⟩ 100 ⟨["10.0.0.5"], [], false, false, false⟩
        [("command", "schedule_enable")] =
      ⟨⟨["10.0.0.5"], ["10.0.0.5"], true, true, true⟩,
        [RuleOp.opBlockAll], 0⟩ ∧
    ((⟨["10.0.0.5"], ["10.0.0.5"], true, true, true⟩ :
        DaemonState).scheduleActive = true ∧
      (⟨["10.0.0.5"], ["10.0.0.5"], true, true, true⟩ :
        DaemonState).blockTriggerArmed = true ∧
      (⟨["10.0.0.5"], ["10.0.0.5"], true, true, true⟩ :
        DaemonState).unblockTriggerArmed = true ∧
      (insideWindow ⟨0, 360⟩ 100 = true →
        [RuleOp.opBlockAll] = [RuleOp.opBlockAll] ∧
          (⟨["10.0.0.5"], ["10.0.0.5"], true, true, true⟩ :
            DaemonState).table = blockAll ["10.0.0.5"] []) ∧
      (insideWindow ⟨0, 360⟩ 100 = false →
        [RuleOp.opBlockAll] = [] ∧
          (⟨["10.0.0.5"], ["10.0.0.5"], true, true, true⟩ :
            DaemonState).table = [])) :=
  ⟨by decide, by decide,
    c4_schedule_enable ⟨0, 360⟩ 100
      ⟨["10.0.0.5"], [], false, false, false⟩
      ⟨["10.0.0.5"], ["10.0.0.5"], true, true, true⟩ [RuleOp.opBlockAll] 0
      (by decide) (by decide)⟩

/-- C5: every inbound payload that does not decode to one of the two
recognized command shapes is discarded with exactly one logged warning, the
daemon state is unchanged and no RuleEnforcer entry point is invoked; the
handler is a total function, so no payload can crash it. -/
theorem c5_malformed_discarded (cfg : Config) (now : Nat) (s : DaemonState)
    (p : Payload) (hp : decode p = none) :
    handleMessage cfg now s p = ⟨s, [], 1⟩ := by
  unfold handleMessage
  rw [hp]

/-- Witness for C5 at the spec's malformed example payload. -/
theorem c5_malformed_discarded_witness :
    decode [("foo", "bar")] = none ∧
    handleMessage ⟨0, 360⟩ 100 ⟨["10.0.0.5"], ["10.0.0.9"], true, true, true⟩
        [("foo", "bar")] =
      ⟨⟨["10.0.0.5"], ["10.0.0.9"], true, true, true⟩, [], 1⟩ :=
  ⟨by decide,
    c5_malformed_discarded ⟨0, 360⟩ 100
      ⟨["10.0.0.5"], ["10.0.0.9"], true, true, true⟩ [("foo", "bar")]
      (by decide)⟩

/-! ## Web UI publishers

Embedded from src/src/App.tsx (publishIotCommand, publishScheduleCommand,
handleToggleBlocks, handleToggleSchedule) and from the earlier App variant
with the per-device schedule dialog (handleScheduleSubmit).  A publish
attempt that fails at the AWS SDK layer is abstracted by a Boolean `ok`
flag; a failed attempt delivers nothing to the broker. -/

/-- From App.tsx: the single MQTT command topic. -/
def MQTT_TOPIC : String := "block/device"

/-- A message delivered to the broker: topic plus the decoded JSON object
payload. -/
structure IotMessage where
  topic : String
  payload : Payload
deriving DecidableEq

/-- Outcome of one publish helper: the messages actually delivered and
whether the helper rethrew an error to its caller. -/
structure PublishResult where
  sent : List IotMessage
  threw : Bool
deriving DecidableEq

/-- From App.tsx publishIotCommand: returns early when targetIp or
commandStatus is falsy (the empty string); otherwise publishes the
two-field ip/status JSON object to the command topic; any publish error is
caught, logged and never rethrown. -/
def publishIotCommand (targetIp commandStatus : String) (ok : Bool) :
    PublishResult :=
  if targetIp = "" ∨ commandStatus = "" then ⟨[], false⟩
  else if ok then
    ⟨[⟨MQTT_TOPIC, [("ip", targetIp), ("status", commandStatus)]⟩], false⟩
  else ⟨[], false⟩

/-- From App.tsx publishScheduleCommand: publishes the one-field command
JSON object to the command topic; a publish error is caught, logged and
then rethrown to the caller. -/
def publishScheduleCommand (enable : Bool) (ok : Bool) : PublishResult :=
  if ok then
    ⟨[⟨MQTT_TOPIC,
      [("command",
        if enable then "schedule_enable" else "schedule_disable")]⟩],
      false⟩
  else ⟨[], true⟩

/-- The AppState record persisted to DynamoDB by updateAppState. -/
structure AppStateRec where
  blocksEnabled : Bool
  scheduleEnabled : Bool
deriving DecidableEq

/-- Result of one toggle handler: messages delivered, the two React state
flags afterwards, and the AppState records persisted. -/
structure ToggleResult where
  sent : List IotMessage
  blocksEnabled : Bool
  scheduleEnabled : Bool
  persisted : List AppStateRec
deriving DecidableEq

/-- From App.tsx handleToggleBlocks: computes the next state, publishes a
block/unblock command for the wildcard address 0.0.0.0 via
publishIotCommand, then updates the local flag and persists; if the awaited
publish helper threw, the remaining statements would not run. -/
def handleToggleBlocks (blocksEnabled scheduleEnabled : Bool) (ok : Bool) :
    ToggleResult :=
  let nextState := !blocksEnabled
  let commandStatus := if nextState then "block" else "unblock"
  let targetIP := "0.0.0.0"
  let pub := publishIotCommand targetIP commandStatus ok
  if pub.threw then ⟨pub.sent, blocksEnabled, scheduleEnabled, []⟩
  else ⟨pub.sent, nextState, scheduleEnabled, [⟨nextState, scheduleEnabled⟩]⟩

/-- From App.tsx handleToggleSchedule: publishes a schedule command via
publishScheduleCommand, then updates the local flag and persists; if the
awaited publish helper threw, the remaining statements would not run. -/
def handleToggleSchedule (blocksEnabled scheduleEnabled : Bool)
    (ok : Bool) : ToggleResult :=
  let nextState := !scheduleEnabled
  let pub := publishScheduleCommand nextState ok
  if pub.threw then ⟨pub.sent, blocksEnabled, scheduleEnabled, []⟩
  else ⟨pub.sent, blocksEnabled, nextState, [⟨blocksEnabled, nextState⟩]⟩

/-- The payload object constructed by handleScheduleSubmit. -/
structure SchedulePayload where
  deviceId : Option String
  name : Option String
  scheduleFrom : Nat
  scheduleTo : Nat
deriving DecidableEq

/-- Result of the per-device schedule dialog submit handler. -/
structure SubmitResult where
  payload : SchedulePayload
  sent : List IotMessage
  persisted : List AppStateRec
  logs : Nat
deriving DecidableEq

/-- From the earlier App variant's handleScheduleSubmit: builds the
per-device schedule payload from the dialog's minute-offset range and logs
it; the MQTT publish is only a comment, so nothing is delivered and nothing
is persisted. -/
def handleScheduleSubmit (deviceId name : Option String)
    (range : Nat × Nat) : SubmitResult :=
  ⟨⟨deviceId, name, range.1, range.2⟩, [], [], 1⟩

/-- Classification of a payload against the two documented wire shapes:
1 for a two-field ip/status object with a valid status, 2 for a one-field
command object with a valid command, 0 otherwise. -/
def payloadShape (p : Payload) : Nat :=
  match p with
  | [(k1, _), (k2, st)] =>
      if k1 = "ip" ∧ k2 = "status" ∧ (st = "block" ∨ st = "unblock") then 1
      else 0
  | [(k, c)] =>
      if k = "command" ∧ (c = "schedule_enable" ∨ c = "schedule_disable")
      then 2 else 0
  | _ => 0

/-- C7: every message the web UI's toggle handlers deliver to the broker
goes to the command topic and its payload matches exactly one of the two
documented wire shapes (two-field ip/status object with a valid status, or
one-field command object with a valid command) — and it decodes
successfully under the daemon-side decoder. -/
theorem c7_published_wellformed (b s ok : Bool) (m : IotMessage)
    (h : m ∈ (handleToggleBlocks b s ok).sent ++
      (handleToggleSchedule b s ok).sent) :
    m.topic = MQTT_TOPIC ∧
      (payloadShape m.payload = 1 ∨ payloadShape m.payload = 2) ∧
      (decode m.payload).isSome = true := by
  have hall : ∀ x ∈ (handleToggleBlocks b s ok).sent ++
      (handleToggleSchedule b s ok).sent,
      x.topic = MQTT_TOPIC ∧
        (payloadShape x.payload = 1 ∨ payloadShape x.payload = 2) ∧
        (decode x.payload).isSome = true := by
    cases b <;> cases s <;> cases ok <;> decide
  exact hall m h

/-- Witness for C7 at the block-all message sent by an enable toggle. -/
theorem c7_published_wellformed_witness :
    (⟨"block/device", [("ip", "0.0.0.0"), ("status", "block")]⟩ :
        IotMessage) ∈
      (handleToggleBlocks false false true).sent ++
        (handleToggleSchedule false false true).sent ∧
    ((⟨"block/device", [("ip", "0.0.0.0"), ("status", "block")]⟩ :
        IotMessage).topic = MQTT_TOPIC ∧
      (payloadShape
          (⟨"block/device", [("ip", "0.0.0.0"), ("status", "block")]⟩ :
            IotMessage).payload = 1 ∨
        payloadShape
          (⟨"block/device", [("ip", "0.0.0.0"), ("status", "block")]⟩ :
            IotMessage).payload = 2) ∧
      (decode
        (⟨"block/device", [("ip", "0.0.0.0"), ("status", "block")]⟩ :
          IotMessage).payload).isSome = true) :=
  ⟨by decide,
    c7_published_wellformed false false true
      ⟨"block/device", [("ip", "0.0.0.0"), ("status", "block")]⟩
      (by decide)⟩

/-- C8: submitting the per-device schedule dialog only constructs the
payload object and logs it — it delivers nothing to the broker and persists
nothing, so the per-device schedule fields are inert UI-only state. -/
theorem c8_schedule_submit_inert (deviceId name : Option String)
    (range : Nat × Nat) :
    (handleScheduleSubmit deviceId name range).sent = [] ∧
      (handleScheduleSubmit deviceId name range).persisted = [] ∧
      (handleScheduleSubmit deviceId name range).payload =
        ⟨deviceId, name, range.1, range.2⟩ ∧
      (handleScheduleSubmit deviceId name range).logs = 1 :=
  ⟨rfl, rfl, rfl, rfl⟩

/-- C9: publishIotCommand never rethrows (its catch branch swallows every
publish error), so handleToggleBlocks always flips blocksEnabled and
persists the flipped flag — also when the publish fails, in which case
nothing was delivered to the broker and the persisted state diverges from
the daemon's enforcement state. -/
theorem c9_toggle_persists_despite_failure (b s ok : Bool) :
    (publishIotCommand "0.0.0.0" (if !b then "block" else "unblock")
        ok).threw = false ∧
      (handleToggleBlocks b s ok).blocksEnabled = !b ∧
      (handleToggleBlocks b s ok).persisted = [⟨!b, s⟩] ∧
      (handleToggleBlocks b s false).sent = [] := by
  cases b <;> cases s <;> cases ok <;> decide

/-- C10: publishIotCommand delivers nothing when its targetIp or
commandStatus argument is the empty string, and every message it does
deliver carries exactly those two field values, both non-empty — so this
sender never publishes a block/unblock message with a missing ip or
status. -/
theorem c10_publish_guard (ip st : String) (ok : Bool) :
    ((ip = "" ∨ st = "") → (publishIotCommand ip st ok).sent = []) ∧
      ∀ m ∈ (publishIotCommand ip st ok).sent,
        lookupField "ip" m.payload = some ip ∧
          lookupField "status" m.payload = some st ∧ ip ≠ "" ∧ st ≠ "" := by
  constructor
  · intro h
    unfold publishIotCommand
    rw [if_pos h]
  · intro m hm
    unfold publishIotCommand at hm
    by_cases hg : ip = "" ∨ st = ""
    · rw [if_pos hg] at hm
      exact absurd hm (List.not_mem_nil m)
    · rw [if_neg hg] at hm
      push_neg at hg
      cases ok with
      | true =>
          simp at hm
          subst hm
          refine ⟨?_, ?_, hg.1, hg.2⟩
          · simp [lookupField]
          · simp [lookupField]
      | false =>
          simp at hm

/-- Witness for C10 at an empty IP argument. -/
theorem c10_publish_guard_witness :
    ((("" : String) = "" ∨ ("block" : String) = "") →
        (publishIotCommand "" "block" true).sent = []) ∧
      ∀ m ∈ (publishIotCommand "" "block" true).sent,
        lookupField "ip" m.payload = some "" ∧
          lookupField "status" m.payload = some "block" ∧
          ("" : String) ≠ "" ∧ ("block" : String) ≠ "" :=
  c10_publish_guard "" "block" true

end WifiMute
